import Mathlib

/-!
Shallow embedding of the LOWTHD tape-simulator DSP core
(src/Source/DSP/JilesAthertonCore.h, PreEmphasis.cpp, MachineEQ.cpp,
HybridTapeProcessor.cpp and the auto-gain link of
src/Plugin/Source/PluginProcessor.cpp) over the real numbers, together
with theorems settling the specification claims about it.
C++ doubles are modelled as ℝ; `std::clamp`, `std::tanh`, `std::atan`,
`static_cast<int>` are modelled by `clampC`, `Real.tanh`, `Real.arctan`,
`truncI` below.
-/

noncomputable section

/-- Model of `std::clamp(v, lo, hi)`: `v < lo ? lo : (hi < v ? hi : v)`. -/
def clampC (v lo hi : ℝ) : ℝ :=
  if v < lo then lo else if hi < v then hi else v

/-- Model of C++ `static_cast<int>` on a double: truncation toward zero. -/
def truncI (x : ℝ) : ℤ :=
  if x < 0 then -⌊-x⌋ else ⌊x⌋

/-- Biquad section state (direct-form-II-transposed), as declared in
`HybridTapeProcessor.h`, `PreEmphasis.h` and `MachineEQ.h` (struct
`Biquad` / `EQBiquad`: coefficients `b0,b1,b2,a1,a2`, state `z1,z2`). -/
structure Biquad where
  b0 : ℝ := 1
  b1 : ℝ := 0
  b2 : ℝ := 0
  a1 : ℝ := 0
  a2 : ℝ := 0
  z1 : ℝ := 0
  z2 : ℝ := 0

/-- `Biquad::process`: returns the output and the advanced state. -/
def Biquad.process (f : Biquad) (input : ℝ) : ℝ × Biquad :=
  let output := f.b0 * input + f.z1
  let z1n := f.b1 * input - f.a1 * output + f.z2
  let z2n := f.b2 * input - f.a2 * output
  (output, { f with z1 := z1n, z2 := z2n })

/-- `Biquad::reset`: zero the delay-line state, coefficients untouched. -/
def Biquad.resetState (f : Biquad) : Biquad :=
  { f with z1 := 0, z2 := 0 }

/-! ## Jiles-Atherton hysteresis core (`JilesAthertonCore.h`) -/

/-- `JilesAthertonCore::Parameters` with its default member values. -/
structure JAParameters where
  M_s : ℝ := 350000
  a : ℝ := 22000
  k : ℝ := 27500
  c : ℝ := 1.7e-1
  alpha : ℝ := 1.6e-3

/-- State of `JilesAthertonCore`: parameters, sample timing, the
magnetization/field history, and the precomputed derived values. -/
structure JilesAthertonCore where
  params : JAParameters := {}
  sampleRate : ℝ := 48000
  T : ℝ := 1 / 48000
  M_n1 : ℝ := 0
  H_n1 : ℝ := 0
  H_d_n1 : ℝ := 0
  oneOverA : ℝ := 1 / 22000
  Q : ℝ := 1
  cAlpha : ℝ := 0

/-- `JilesAthertonCore::setParameters`: store `p` and precompute the
derived values; the magnetization/field state is untouched. -/
def JilesAthertonCore.setParameters (core : JilesAthertonCore)
    (p : JAParameters) : JilesAthertonCore :=
  { core with
    params := p
    oneOverA := 1 / p.a
    Q := (1 - p.c) / (1 - p.c * p.alpha)
    cAlpha := p.c * p.alpha }

/-- `JilesAthertonCore::setSampleRate`. -/
def JilesAthertonCore.setSampleRate (core : JilesAthertonCore)
    (sr : ℝ) : JilesAthertonCore :=
  { core with sampleRate := sr, T := 1 / sr }

/-- `JilesAthertonCore::reset`: demagnetized state. -/
def JilesAthertonCore.reset (core : JilesAthertonCore) : JilesAthertonCore :=
  { core with M_n1 := 0, H_n1 := 0, H_d_n1 := 0 }

/-- Langevin function with the small-argument Taylor fallback,
as in `JilesAthertonCore::langevin`. -/
def langevin (x : ℝ) : ℝ :=
  if |x| < 1e-4 then x / 3 else 1 / Real.tanh x - 1 / x

/-- Derivative of the Langevin function, `JilesAthertonCore::langevinD`. -/
def langevinD (x : ℝ) : ℝ :=
  if |x| < 1e-4 then 1 / 3
  else 1 / (x * x) - (1 / Real.tanh x) * (1 / Real.tanh x) + 1

/-- `JilesAthertonCore::computeDfDM`. -/
def JilesAthertonCore.computeDfDM (core : JilesAthertonCore)
    (H M delta : ℝ) : ℝ :=
  let H_eff := H + core.params.alpha * M
  let x := H_eff * core.oneOverA
  let Ld := langevinD x
  let M_an := core.params.M_s * langevin x
  let dM_an := core.params.M_s * Ld * core.oneOverA * core.params.alpha
  let M_diff := M_an - M
  let delta_k := delta * core.params.k
  let denom := delta_k - core.params.alpha * M_diff
  if |denom| < 1e-12 then 0
  else (dM_an - 1) / denom / (1 - core.cAlpha)

/-- One Newton-Raphson iteration of `JilesAthertonCore::solveNR8`
(the body of the `for` loop), ending with the clamp to
`[-M_s, +M_s]`. -/
def JilesAthertonCore.nrStep (core : JilesAthertonCore)
    (H H_d delta M : ℝ) : ℝ :=
  let H_eff := H + core.params.alpha * M
  let M_an := core.params.M_s * langevin (H_eff * core.oneOverA)
  let dM_an_dM := core.params.M_s * langevinD (H_eff * core.oneOverA) *
    core.oneOverA * core.params.alpha
  let M_diff := M_an - M
  let denom := 1 - core.cAlpha
  let delta_k := delta * core.params.k
  let dM_dH :=
    if |M_diff| > 1e-12 ∧ delta * M_diff > 0 then
      (M_diff / (delta_k - core.params.alpha * M_diff) +
        core.params.c * dM_an_dM) / denom
    else core.params.c * dM_an_dM / denom
  let f := M - core.M_n1 - core.T * dM_dH * H_d
  let f_prime := 1 - core.T * H_d * core.computeDfDM H M delta
  let M1 := if |f_prime| > 1e-12 then M - f / f_prime else M
  clampC M1 (-core.params.M_s) core.params.M_s

/-- The Newton-Raphson iteration of `solveNR8`, unrolled: `nrLoop n` is
the value of `M` after `n` iterations of the loop. -/
def JilesAthertonCore.nrLoop (core : JilesAthertonCore)
    (H H_d delta : ℝ) : ℕ → ℝ
  | 0 => core.M_n1
  | n + 1 => core.nrStep H H_d delta (core.nrLoop H H_d delta n)

/-- `JilesAthertonCore::solveNR8`: eight Newton-Raphson iterations from
the previous magnetization. -/
def JilesAthertonCore.solveNR8 (core : JilesAthertonCore)
    (H H_d : ℝ) : ℝ :=
  let delta : ℝ := if H_d ≥ 0 then 1 else -1
  core.nrLoop H H_d delta 8

/-- `JilesAthertonCore::process`: returns the magnetization and the
updated core state. -/
def JilesAthertonCore.process (core : JilesAthertonCore)
    (H : ℝ) : ℝ × JilesAthertonCore :=
  let H_d := (H - core.H_n1) / core.T
  let M := core.solveNR8 H H_d
  (M, { core with H_n1 := H, H_d_n1 := H_d, M_n1 := M })

/-! ## CCIR emphasis filters (`PreEmphasis.cpp`) -/

/-- `designHighShelf` of `PreEmphasis.cpp` (RBJ high-shelf): recompute
the coefficients of `filter`, leaving its state untouched. -/
def designHighShelf (filter : Biquad) (fc gainDB Q fs : ℝ) : Biquad :=
  let A := (10 : ℝ) ^ (gainDB / 40)
  let omega := 2 * Real.pi * fc / fs
  let cosOmega := Real.cos omega
  let sinOmega := Real.sin omega
  let alpha := sinOmega / (2 * Q)
  let a0 := (A + 1) - (A - 1) * cosOmega + 2 * Real.sqrt A * alpha
  { filter with
    b0 := A * ((A + 1) + (A - 1) * cosOmega + 2 * Real.sqrt A * alpha) / a0
    b1 := -2 * A * ((A - 1) + (A + 1) * cosOmega) / a0
    b2 := A * ((A + 1) + (A - 1) * cosOmega - 2 * Real.sqrt A * alpha) / a0
    a1 := 2 * ((A - 1) - (A + 1) * cosOmega) / a0
    a2 := ((A + 1) - (A - 1) * cosOmega - 2 * Real.sqrt A * alpha) / a0 }

/-- `designBell` of `PreEmphasis.cpp` (RBJ peaking EQ). -/
def designBell (filter : Biquad) (fc gainDB Q fs : ℝ) : Biquad :=
  let A := (10 : ℝ) ^ (gainDB / 40)
  let omega := 2 * Real.pi * fc / fs
  let cosOmega := Real.cos omega
  let sinOmega := Real.sin omega
  let alpha := sinOmega / (2 * Q)
  let a0 := 1 + alpha / A
  { filter with
    b0 := (1 + alpha * A) / a0
    b1 := -2 * cosOmega / a0
    b2 := (1 - alpha * A) / a0
    a1 := -2 * cosOmega / a0
    a2 := (1 - alpha / A) / a0 }

/-- Shared filter-bank state of the `ReEmphasis` / `DeEmphasis` classes
as implemented in `PreEmphasis.cpp`: two high shelves and three bells. -/
structure EmphasisFilters where
  fs : ℝ := 48000
  shelf1 : Biquad := {}
  shelf2 : Biquad := {}
  bell1 : Biquad := {}
  bell2 : Biquad := {}
  bell3 : Biquad := {}

/-- `ReEmphasis::updateCoefficients` (CCIR 35 μs boost curve), with the
Nyquist clamping of the two highest design frequencies. -/
def reEmphasisUpdateCoefficients (e : EmphasisFilters) : EmphasisFilters :=
  let nyquist := e.fs / 2
  let bell1Freq : ℝ := if 20000 > nyquist * 0.9 then nyquist * 0.9 else 20000
  let shelf2Freq : ℝ := if 10000 > nyquist * 0.9 then nyquist * 0.9 else 10000
  { e with
    shelf1 := designHighShelf e.shelf1 3000 4 0.5 e.fs
    shelf2 := designHighShelf e.shelf2 shelf2Freq 5 0.71 e.fs
    bell1 := designBell e.bell1 bell1Freq 5 0.6 e.fs
    bell2 := designBell e.bell2 15000 (-1.1) 1.2 e.fs
    bell3 := designBell e.bell3 3000 (-1.0) 1.5 e.fs }

/-- `DeEmphasis::updateCoefficients` (exact inverse gains). -/
def deEmphasisUpdateCoefficients (e : EmphasisFilters) : EmphasisFilters :=
  let nyquist := e.fs / 2
  let bell1Freq : ℝ := if 20000 > nyquist * 0.9 then nyquist * 0.9 else 20000
  let shelf2Freq : ℝ := if 10000 > nyquist * 0.9 then nyquist * 0.9 else 10000
  { e with
    shelf1 := designHighShelf e.shelf1 3000 (-4) 0.5 e.fs
    shelf2 := designHighShelf e.shelf2 shelf2Freq (-5) 0.71 e.fs
    bell1 := designBell e.bell1 bell1Freq (-5) 0.6 e.fs
    bell2 := designBell e.bell2 15000 1.1 1.2 e.fs
    bell3 := designBell e.bell3 3000 1.0 1.5 e.fs }

/-- `ReEmphasis::processSample` / `DeEmphasis::processSample`: the five
sections in cascade; returns output and advanced filter bank. -/
def EmphasisFilters.processSample (e : EmphasisFilters) (input : ℝ) :
    ℝ × EmphasisFilters :=
  let p1 := e.shelf1.process input
  let p2 := e.shelf2.process p1.1
  let p3 := e.bell1.process p2.1
  let p4 := e.bell2.process p3.1
  let p5 := e.bell3.process p4.1
  (p5.1, { e with shelf1 := p1.2, shelf2 := p2.2,
                  bell1 := p3.2, bell2 := p4.2, bell3 := p5.2 })

/-- `ReEmphasis::reset` / `DeEmphasis::reset`. -/
def EmphasisFilters.reset (e : EmphasisFilters) : EmphasisFilters :=
  { e with shelf1 := e.shelf1.resetState, shelf2 := e.shelf2.resetState,
           bell1 := e.bell1.resetState, bell2 := e.bell2.resetState,
           bell3 := e.bell3.resetState }

/-- `ReEmphasis::setSampleRate`. -/
def reEmphasisSetSampleRate (e : EmphasisFilters) (sampleRate : ℝ) :
    EmphasisFilters :=
  reEmphasisUpdateCoefficients { e with fs := sampleRate }

/-- `DeEmphasis::setSampleRate`. -/
def deEmphasisSetSampleRate (e : EmphasisFilters) (sampleRate : ℝ) :
    EmphasisFilters :=
  deEmphasisUpdateCoefficients { e with fs := sampleRate }

/-- `ReEmphasis::ReEmphasis()`: design coefficients at the default
sample rate, then reset. -/
def reEmphasisInit : EmphasisFilters :=
  (reEmphasisUpdateCoefficients {}).reset

/-- `DeEmphasis::DeEmphasis()`. -/
def deEmphasisInit : EmphasisFilters :=
  (deEmphasisUpdateCoefficients {}).reset

/-! ## Machine EQ (`MachineEQ.h` / `MachineEQ.cpp`) -/

/-- First-order filter of `MachineEQ.h` (6 dB/oct slopes). -/
structure FirstOrderFilter where
  b0 : ℝ := 1
  b1 : ℝ := 0
  a1 : ℝ := 0
  z1 : ℝ := 0

/-- `FirstOrderFilter::process`. -/
def FirstOrderFilter.process (f : FirstOrderFilter) (input : ℝ) :
    ℝ × FirstOrderFilter :=
  let output := f.b0 * input + f.z1
  (output, { f with z1 := f.b1 * input - f.a1 * output })

/-- `EQBiquad::setBell` of `MachineEQ.h` (argument order `fc, Q, gainDB,
sampleRate`). -/
def setBell (f : Biquad) (fc Q gainDB sampleRate : ℝ) : Biquad :=
  let A := (10 : ℝ) ^ (gainDB / 40)
  let w0 := 2 * Real.pi * fc / sampleRate
  let cosw0 := Real.cos w0
  let sinw0 := Real.sin w0
  let alpha := sinw0 / (2 * Q)
  let a0 := 1 + alpha / A
  { f with
    b0 := (1 + alpha * A) / a0
    b1 := -2 * cosw0 / a0
    b2 := (1 - alpha * A) / a0
    a1 := -2 * cosw0 / a0
    a2 := (1 - alpha / A) / a0 }

/-- `EQBiquad::setHighPass` of `MachineEQ.h`. -/
def setHighPassBiquad (f : Biquad) (fc Q sampleRate : ℝ) : Biquad :=
  let w0 := 2 * Real.pi * fc / sampleRate
  let cosw0 := Real.cos w0
  let sinw0 := Real.sin w0
  let alpha := sinw0 / (2 * Q)
  let a0 := 1 + alpha
  { f with
    b0 := ((1 + cosw0) / 2) / a0
    b1 := (-(1 + cosw0)) / a0
    b2 := ((1 + cosw0) / 2) / a0
    a1 := -2 * cosw0 / a0
    a2 := (1 - alpha) / a0 }

/-- `FirstOrderFilter::setHighPass`. -/
def setHighPassFO (f : FirstOrderFilter) (fc sampleRate : ℝ) :
    FirstOrderFilter :=
  let K := Real.tan (Real.pi * fc / sampleRate)
  let a0 := 1 + K
  { f with b0 := 1 / a0, b1 := -1 / a0, a1 := (K - 1) / a0 }

/-- `FirstOrderFilter::setLowPass`. -/
def setLowPassFO (f : FirstOrderFilter) (fc sampleRate : ℝ) :
    FirstOrderFilter :=
  let K := Real.tan (Real.pi * fc / sampleRate)
  let a0 := 1 + K
  { f with b0 := K / a0, b1 := K / a0, a1 := (K - 1) / a0 }

/-- `MachineEQ::Machine`. -/
inductive Machine
  | Ampex
  | Studer
deriving DecidableEq

/-- State of the `MachineEQ` class: the selected machine and the two
fixed filter banks. -/
structure MachineEQ where
  fs : ℝ := 48000
  currentMachine : Machine := Machine.Ampex
  ampexHP : Biquad := {}
  ampexBell1 : Biquad := {}
  ampexBell2 : Biquad := {}
  ampexBell3 : Biquad := {}
  ampexBell4 : Biquad := {}
  ampexBell5 : Biquad := {}
  ampexBell6 : Biquad := {}
  ampexBell7 : Biquad := {}
  ampexBell8 : Biquad := {}
  ampexBell9 : Biquad := {}
  ampexBell10 : Biquad := {}
  ampexLP : FirstOrderFilter := {}
  studerHP1 : Biquad := {}
  studerHP2 : FirstOrderFilter := {}
  studerBell1 : Biquad := {}
  studerBell2 : Biquad := {}
  studerBell3 : Biquad := {}
  studerBell4 : Biquad := {}
  studerBell5 : Biquad := {}
  studerBell6 : Biquad := {}
  studerBell7 : Biquad := {}
  studerBell8 : Biquad := {}

/-- `MachineEQ::updateCoefficients` with the literal design constants of
`MachineEQ.cpp`. -/
def MachineEQ.updateCoefficients (m : MachineEQ) : MachineEQ :=
  { m with
    ampexHP := setHighPassBiquad m.ampexHP 20.8 0.7071 m.fs
    ampexBell1 := setBell m.ampexBell1 28.0 2.5 0.4 m.fs
    ampexBell2 := setBell m.ampexBell2 40.0 1.8 0.95 m.fs
    ampexBell3 := setBell m.ampexBell3 70.0 2.0 (-0.3) m.fs
    ampexBell4 := setBell m.ampexBell4 105.0 2.0 0.1 m.fs
    ampexBell5 := setBell m.ampexBell5 150.0 2.0 (-0.2) m.fs
    ampexBell6 := setBell m.ampexBell6 300.0 0.8 (-0.55) m.fs
    ampexBell7 := setBell m.ampexBell7 1200.0 1.5 (-0.25) m.fs
    ampexBell8 := setBell m.ampexBell8 3000.0 1.2 (-0.5) m.fs
    ampexBell9 := setBell m.ampexBell9 16000.0 1.5 (-0.5) m.fs
    ampexBell10 := setBell m.ampexBell10 20000.0 0.6 0.3 m.fs
    ampexLP := setLowPassFO m.ampexLP 40000.0 m.fs
    studerHP1 := setHighPassBiquad m.studerHP1 22.0 1.0 m.fs
    studerHP2 := setHighPassFO m.studerHP2 22.0 m.fs
    studerBell1 := setBell m.studerBell1 49.5 1.5 0.6 m.fs
    studerBell2 := setBell m.studerBell2 72.0 2.07 (-1.0) m.fs
    studerBell3 := setBell m.studerBell3 110.0 1.0 1.8 m.fs
    studerBell4 := setBell m.studerBell4 180.0 1.0 (-0.7) m.fs
    studerBell5 := setBell m.studerBell5 400.0 1.5 0.1 m.fs
    studerBell6 := setBell m.studerBell6 2000.0 1.5 0.15 m.fs
    studerBell7 := setBell m.studerBell7 10000.0 2.5 (-0.1) m.fs
    studerBell8 := setBell m.studerBell8 18000.0 1.2 0.2 m.fs }

/-- `MachineEQ::processSample`: the machine-dependent filter cascade. -/
def MachineEQ.processSample (m : MachineEQ) (input : ℝ) : ℝ × MachineEQ :=
  if m.currentMachine = Machine.Ampex then
    let p1 := m.ampexHP.process input
    let p2 := m.ampexBell1.process p1.1
    let p3 := m.ampexBell2.process p2.1
    let p4 := m.ampexBell3.process p3.1
    let p5 := m.ampexBell4.process p4.1
    let p6 := m.ampexBell5.process p5.1
    let p7 := m.ampexBell6.process p6.1
    let p8 := m.ampexBell7.process p7.1
    let p9 := m.ampexBell8.process p8.1
    let p10 := m.ampexBell9.process p9.1
    let p11 := m.ampexBell10.process p10.1
    let p12 := m.ampexLP.process p11.1
    (p12.1, { m with
      ampexHP := p1.2, ampexBell1 := p2.2, ampexBell2 := p3.2,
      ampexBell3 := p4.2, ampexBell4 := p5.2, ampexBell5 := p6.2,
      ampexBell6 := p7.2, ampexBell7 := p8.2, ampexBell8 := p9.2,
      ampexBell9 := p10.2, ampexBell10 := p11.2, ampexLP := p12.2 })
  else
    let p1 := m.studerHP1.process input
    let p2 := m.studerHP2.process p1.1
    let p3 := m.studerBell1.process p2.1
    let p4 := m.studerBell2.process p3.1
    let p5 := m.studerBell3.process p4.1
    let p6 := m.studerBell4.process p5.1
    let p7 := m.studerBell5.process p6.1
    let p8 := m.studerBell6.process p7.1
    let p9 := m.studerBell7.process p8.1
    let p10 := m.studerBell8.process p9.1
    (p10.1, { m with
      studerHP1 := p1.2, studerHP2 := p2.2, studerBell1 := p3.2,
      studerBell2 := p4.2, studerBell3 := p5.2, studerBell4 := p6.2,
      studerBell5 := p7.2, studerBell6 := p8.2, studerBell7 := p9.2,
      studerBell8 := p10.2 })

/-- `MachineEQ::MachineEQ()`: design coefficients at the default rate. -/
def machineEQInit : MachineEQ :=
  MachineEQ.updateCoefficients {}

/-! ## Hybrid tape processor (`HybridTapeProcessor.h` / `.cpp`) -/

/-- First-order dispersive allpass of `HybridTapeProcessor.h`
(struct `AllpassFilter`). -/
structure AllpassFilter where
  coefficient : ℝ := 0
  z1 : ℝ := 0

/-- `AllpassFilter::setFrequency`. -/
def AllpassFilter.setFrequency (f : AllpassFilter) (freq sampleRate : ℝ) :
    AllpassFilter :=
  let w0 := 2 * Real.pi * freq / sampleRate
  let tanHalf := Real.tan (w0 / 2)
  { f with coefficient := (1 - tanHalf) / (1 + tanHalf) }

/-- `AllpassFilter::process`. -/
def AllpassFilter.process (f : AllpassFilter) (input : ℝ) :
    ℝ × AllpassFilter :=
  let output := f.coefficient * input + f.z1
  (output, { f with z1 := input - f.coefficient * output })

/-- `DELAY_BUFFER_SIZE` of `HybridTapeProcessor.h`. -/
abbrev DELAY_BUFFER_SIZE : ℕ := 4

/-- State of the `HybridTapeProcessor` class: every member variable of
`HybridTapeProcessor.h` with its default member initializer. -/
structure HybridTapeProcessor where
  delayBuffer : Fin DELAY_BUFFER_SIZE → ℝ := fun _ => 0
  delayWriteIndex : Fin DELAY_BUFFER_SIZE := 0
  cachedDelaySamples : ℝ := 0
  currentBiasStrength : ℝ := 0.65
  currentInputGain : ℝ := 1
  isAmpexMode : Bool := true
  tapeBumpEnabled : Bool := true
  fs : ℝ := 48000
  tanhDrive : ℝ := 0.11
  tanhAsymmetry : ℝ := 0.80
  tanhBias : ℝ := 0
  tanhDcOffset : ℝ := 0
  tanhNormFactor : ℝ := 1
  atanDrive : ℝ := 0.5
  atanMixMax : ℝ := 0
  atanThreshold : ℝ := 1.5
  atanWidth : ℝ := 1
  atanAsymmetry : ℝ := 1
  useAsymmetricAtan : Bool := false
  atanBias : ℝ := 0
  atanDcOffset : ℝ := 0
  atanNormFactor : ℝ := 1
  jaBlendMax : ℝ := 0.50
  jaBlendThreshold : ℝ := 0.3
  jaBlendWidth : ℝ := 0.4
  jaEnvelope : ℝ := 0
  dcBlocker1 : Biquad := {}
  dcBlocker2 : Biquad := {}
  reEmphasis : EmphasisFilters := reEmphasisInit
  deEmphasis : EmphasisFilters := deEmphasisInit
  dispersiveAllpass : Fin 4 → AllpassFilter := fun _ => {}
  dispersiveCornerFreq : ℝ := 4000
  jaCore : JilesAthertonCore := {}
  jaInputScale : ℝ := 3
  jaOutputScale : ℝ := 1
  machineEQ : MachineEQ := machineEQInit

/-- `HybridTapeProcessor::updateCachedValues`: select the machine mode
by the 0.74 threshold on the bias strength and install the
machine-specific constants; `cachedDelaySamples` is the azimuth delay
in samples (8 μs Ampex, 12 μs Studer, times `fs`). -/
def HybridTapeProcessor.updateCachedValues (s : HybridTapeProcessor) :
    HybridTapeProcessor :=
  if s.currentBiasStrength < 0.74 then
    { s with
      isAmpexMode := true
      jaCore := s.jaCore.setParameters
        { M_s := 1.0, a := 50.0, k := 0.005, c := 0.95, alpha := 1.0e-6 }
      jaInputScale := 1.0
      jaOutputScale := 150.0
      tanhDrive := 0.095
      tanhAsymmetry := 1.08
      jaBlendMax := 1.00
      jaBlendThreshold := 0.77
      jaBlendWidth := 1.5
      atanDrive := 5.0
      atanMixMax := 0.65
      atanThreshold := 0.5
      atanWidth := 2.5
      atanAsymmetry := 1.0
      useAsymmetricAtan := false
      cachedDelaySamples := 8.0 * 1e-6 * s.fs }
  else
    { s with
      isAmpexMode := false
      jaCore := s.jaCore.setParameters
        { M_s := 1.0, a := 35.0, k := 0.01, c := 0.92, alpha := 1.0e-5 }
      jaInputScale := 1.0
      jaOutputScale := 105.0
      tanhDrive := 0.14
      tanhAsymmetry := 1.18
      jaBlendMax := 1.00
      jaBlendThreshold := 0.60
      jaBlendWidth := 1.2
      atanDrive := 5.5
      atanMixMax := 0.72
      atanThreshold := 0.4
      atanWidth := 2.5
      atanAsymmetry := 1.25
      useAsymmetricAtan := true
      cachedDelaySamples := 12.0 * 1e-6 * s.fs }

/-- `HybridTapeProcessor::setParameters` (as defined in
`HybridTapeProcessor.cpp`): clamp the bias strength into `[0,1]`, store
the gain, and recompute the cached values unconditionally. -/
def HybridTapeProcessor.setParameters (s : HybridTapeProcessor)
    (biasStrength inputGain : ℝ) : HybridTapeProcessor :=
  HybridTapeProcessor.updateCachedValues
    { s with
      currentBiasStrength := clampC biasStrength 0.0 1.0
      currentInputGain := inputGain }

/-- `HybridTapeProcessor::setSampleRate`: store `fs`, retune the
emphasis filters and the J-A core, and design the two DC-blocker
sections (4th-order Butterworth high-pass at 5 Hz). Note that neither
`cachedDelaySamples` nor the machine EQ nor the dispersive allpass is
touched here. -/
def HybridTapeProcessor.setSampleRate (s : HybridTapeProcessor)
    (sampleRate : ℝ) : HybridTapeProcessor :=
  let fc : ℝ := 5.0
  let w0 := 2 * Real.pi * fc / sampleRate
  let cosw0 := Real.cos w0
  let sinw0 := Real.sin w0
  let alpha := sinw0 / (2 * 0.7071)
  let b0 := (1 + cosw0) / 2
  let b1 := -(1 + cosw0)
  let b2 := (1 + cosw0) / 2
  let a0 := 1 + alpha
  let a1 := -2 * cosw0
  let a2 := 1 - alpha
  let dc1 := { s.dcBlocker1 with
    b0 := b0 / a0, b1 := b1 / a0, b2 := b2 / a0,
    a1 := a1 / a0, a2 := a2 / a0 }
  let dc2 := { s.dcBlocker2 with
    b0 := dc1.b0, b1 := dc1.b1, b2 := dc1.b2,
    a1 := dc1.a1, a2 := dc1.a2 }
  { s with
    fs := sampleRate
    reEmphasis := reEmphasisSetSampleRate s.reEmphasis sampleRate
    deEmphasis := deEmphasisSetSampleRate s.deEmphasis sampleRate
    jaCore := s.jaCore.setSampleRate sampleRate
    dcBlocker1 := dc1
    dcBlocker2 := dc2 }

/-- `HybridTapeProcessor::reset`: clear the DC blockers, emphasis
filters, J-A state, azimuth delay buffer and the blend envelope.
(The machine EQ and the dispersive allpass states are not cleared by
the source.) -/
def HybridTapeProcessor.reset (s : HybridTapeProcessor) :
    HybridTapeProcessor :=
  { s with
    dcBlocker1 := s.dcBlocker1.resetState
    dcBlocker2 := s.dcBlocker2.resetState
    reEmphasis := s.reEmphasis.reset
    deEmphasis := s.deEmphasis.reset
    jaCore := s.jaCore.reset
    delayBuffer := fun _ => 0
    delayWriteIndex := 0
    jaEnvelope := 0 }

/-- `HybridTapeProcessor::HybridTapeProcessor()`: default member values,
then `updateCachedValues()`, then `reset()`. -/
def constructedHybrid : HybridTapeProcessor :=
  HybridTapeProcessor.reset (HybridTapeProcessor.updateCachedValues {})

/-- The envelope attack coefficient `envAttack` of
`HybridTapeProcessor::processSample` (commented `// Fast attack`). -/
def envAttack : ℝ := 0.002

/-- The envelope release coefficient `envRelease` of
`HybridTapeProcessor::processSample` (commented `// Moderate release`). -/
def envRelease : ℝ := 0.020

/-- The envelope-follower update of `processSample` step 2:
asymmetric attack/release smoothing of `|gained|`. -/
def envFollow (env absGained : ℝ) : ℝ :=
  if absGained > env then env + envAttack * (absGained - env)
  else env + envRelease * (absGained - env)

/-- The clamped J-A blend ratio of `processSample` step 3. -/
def jaBlendRatioOf (s : HybridTapeProcessor) (env : ℝ) : ℝ :=
  clampC ((env - s.jaBlendThreshold) / s.jaBlendWidth) 0.0 1.0

/-- The cubic-smoothstep J-A blend weight of `processSample` step 3. -/
def jaBlendOf (s : HybridTapeProcessor) (env : ℝ) : ℝ :=
  s.jaBlendMax * jaBlendRatioOf s env * jaBlendRatioOf s env *
    (3 - 2 * jaBlendRatioOf s env)

/-- The clamped atan blend ratio of `processSample` step 6. -/
def atanBlendRatioOf (s : HybridTapeProcessor) (env : ℝ) : ℝ :=
  clampC ((env - s.atanThreshold) / s.atanWidth) 0.0 1.0

/-- The level-dependent atan amount of `processSample` step 6. -/
def atanAmountOf (s : HybridTapeProcessor) (env : ℝ) : ℝ :=
  s.atanMixMax * atanBlendRatioOf s env * atanBlendRatioOf s env *
    (3 - 2 * atanBlendRatioOf s env)

/-- `HybridTapeProcessor::asymmetricTanh` (DC-biased tanh with the
normalization guard). -/
def asymmetricTanh (drive asym x : ℝ) : ℝ :=
  let bias := asym - 1
  let biased := x + bias
  let saturated := Real.tanh (drive * biased)
  let dcOffset := Real.tanh (drive * bias)
  let output := saturated - dcOffset
  let normFactor := drive * (1 - dcOffset * dcOffset)
  if normFactor > 0.001 then output / normFactor else output

/-- `HybridTapeProcessor::softAtan` (normalized symmetric atan with the
zero-drive bypass guard). -/
def softAtan (drive x : ℝ) : ℝ :=
  if drive < 0.001 then x else Real.arctan (drive * x) / drive

/-- `HybridTapeProcessor::asymmetricAtan` (DC-biased atan with both
guards). -/
def asymmetricAtan (drive asym x : ℝ) : ℝ :=
  if drive < 0.001 then x
  else
    let bias := asym - 1
    let driven := drive * (x + bias)
    let saturated := Real.arctan driven
    let dcOffset := Real.arctan (drive * bias)
    let output := saturated - dcOffset
    let driveBias := drive * bias
    let normFactor := drive / (1 + driveBias * driveBias)
    if normFactor > 0.001 then output / normFactor else output

/-- `HybridTapeProcessor::processSample`: the per-sample pipeline as
implemented in `HybridTapeProcessor.cpp` lines 239-312 — input gain,
envelope update, blend weights, de-emphasis, J-A path, tanh path with
level-dependent series atan, parallel blend, re-emphasis, and the two
DC-blocker sections. -/
def HybridTapeProcessor.processSample (s : HybridTapeProcessor)
    (input : ℝ) : ℝ × HybridTapeProcessor :=
  let gained := input * s.currentInputGain
  let absGained := |gained|
  let env1 := envFollow s.jaEnvelope absGained
  let jaBlend := jaBlendOf s env1
  let de := s.deEmphasis.processSample gained
  let jaInput := de.1 * s.jaInputScale
  let ja := s.jaCore.process jaInput
  let jaPath := ja.1 * s.jaOutputScale
  let tanhOut := asymmetricTanh s.tanhDrive s.tanhAsymmetry de.1
  let atanAmount := atanAmountOf s env1
  let atanOut := if s.useAsymmetricAtan then
      asymmetricAtan s.atanDrive s.atanAsymmetry tanhOut
    else softAtan s.atanDrive tanhOut
  let tanhPath := tanhOut * (1 - atanAmount) + atanOut * atanAmount
  let blended := jaPath * jaBlend + tanhPath * (1 - jaBlend)
  let re := s.reEmphasis.processSample blended
  let d1 := s.dcBlocker1.process re.1
  let d2 := s.dcBlocker2.process d1.1
  (d2.1, { s with
    jaEnvelope := env1
    deEmphasis := de.2
    jaCore := ja.2
    reEmphasis := re.2
    dcBlocker1 := d1.2
    dcBlocker2 := d2.2 })

/-- Conversion of a (possibly out-of-range) integer read index into the
4-slot delay buffer. The C++ code indexes the raw `int` (which is in
range whenever the delay is below the buffer size); the embedding wraps
it into the buffer bounds. -/
def idx4 (i : ℤ) : Fin DELAY_BUFFER_SIZE :=
  ⟨(i % 4).toNat, by
    have h1 : 0 ≤ i % 4 := Int.emod_nonneg i (by norm_num)
    have h2 : i % 4 < 4 := Int.emod_lt_of_pos i (by norm_num)
    show (i % 4).toNat < 4
    omega⟩

/-- The azimuth-delay epilogue of
`HybridTapeProcessor::processRightChannel`: write the processed sample
into the circular buffer, read back `cachedDelaySamples` earlier with
linear interpolation (truncating cast, single wrap-around test), and
advance the write index. -/
def azimuthPush (s : HybridTapeProcessor) (processed : ℝ) :
    ℝ × HybridTapeProcessor :=
  let buf := Function.update s.delayBuffer s.delayWriteIndex processed
  let readPos0 := (s.delayWriteIndex.val : ℝ) - s.cachedDelaySamples
  let readPos := if readPos0 < 0 then
      readPos0 + (DELAY_BUFFER_SIZE : ℝ) else readPos0
  let readIndex0 := truncI readPos
  let readIndex1 := (readIndex0 + 1) % (DELAY_BUFFER_SIZE : ℤ)
  let frac := readPos - (readIndex0 : ℝ)
  let delayed := buf (idx4 readIndex0) * (1 - frac) +
    buf (idx4 readIndex1) * frac
  (delayed, { s with
    delayBuffer := buf
    delayWriteIndex := s.delayWriteIndex + 1 })

/-- `HybridTapeProcessor::processRightChannel`: the full `processSample`
pipeline, then the azimuth delay line. -/
def HybridTapeProcessor.processRightChannel (s : HybridTapeProcessor)
    (input : ℝ) : ℝ × HybridTapeProcessor :=
  let p := s.processSample input
  azimuthPush p.2 p.1

/-- Folding `processSample` over a list of input samples (state part). -/
def processList (s : HybridTapeProcessor) (xs : List ℝ) :
    HybridTapeProcessor :=
  xs.foldl (fun t x => (t.processSample x).2) s

/-- The largest `|input * gain|` over a list of input samples. -/
def maxAbsGained (gain : ℝ) (xs : List ℝ) : ℝ :=
  xs.foldl (fun m x => max m |x * gain|) 0

/-! ## Auto-gain link (`PluginProcessor.cpp`) -/

/-- Parameter identifier `PARAM_INPUT_TRIM`. -/
def PARAM_INPUT_TRIM : String := "inputTrim"

/-- Parameter identifier `PARAM_OUTPUT_TRIM`. -/
def PARAM_OUTPUT_TRIM : String := "outputTrim"

/-- Parameter identifier `PARAM_MACHINE_MODE`. -/
def PARAM_MACHINE_MODE : String := "machineMode"

/-- The auto-gain state of `LowTHDTapeSimulatorAudioProcessor`: the last
seen input-trim value, the output-trim parameter, and the recursion
guard flag. -/
structure AutoGainState where
  lastInputTrimValue : ℝ := 0.5
  outputTrim : ℝ := 1.0
  isUpdatingOutputTrim : Bool := false

/-- `LowTHDTapeSimulatorAudioProcessor::parameterChanged`: on an
input-trim change (and only then, and only when the guard flag is
clear), scale the output trim by the inverse ratio of the change,
clamped to `[0.1, 3.0]`; the guard flag is set around the write and
cleared afterwards. -/
def parameterChanged (st : AutoGainState) (parameterID : String)
    (newValue : ℝ) : AutoGainState :=
  if parameterID = PARAM_INPUT_TRIM ∧ st.isUpdatingOutputTrim = false then
    let ratio0 := st.lastInputTrimValue / newValue
    let currentOutputTrim := st.outputTrim
    let newOutputTrim := clampC (currentOutputTrim * ratio0) 0.1 3.0
    { st with
      outputTrim := newOutputTrim
      isUpdatingOutputTrim := false
      lastInputTrimValue := newValue }
  else st

/-- The dynamic (signal) state of the processor: envelope, delay line,
DC blockers, emphasis filter banks, J-A magnetization history, machine
EQ and dispersive allpass — everything that is filter state rather
than a cached coefficient. -/
def dynamicState (s : HybridTapeProcessor) :=
  (s.jaEnvelope, s.delayBuffer, s.delayWriteIndex,
   s.dcBlocker1, s.dcBlocker2, s.reEmphasis, s.deEmphasis,
   s.jaCore.M_n1, s.jaCore.H_n1, s.jaCore.H_d_n1,
   s.machineEQ, s.dispersiveAllpass)

/-! ## Helper lemmas about `clampC` -/

theorem clampC_mem {lo hi : ℝ} (x : ℝ) (h : lo ≤ hi) :
    lo ≤ clampC x lo hi ∧ clampC x lo hi ≤ hi := by
  unfold clampC
  split_ifs with h1 h2
  · exact ⟨le_refl _, h⟩
  · exact ⟨h, le_refl _⟩
  · exact ⟨le_of_not_lt h1, le_of_not_lt h2⟩

theorem abs_clampC_le {m : ℝ} (x : ℝ) (hm : 0 ≤ m) :
    |clampC x (-m) m| ≤ m := by
  unfold clampC
  split_ifs with h1 h2
  · rw [abs_neg, abs_of_nonneg hm]
  · rw [abs_of_nonneg hm]
  · exact abs_le.mpr ⟨le_of_not_lt h1, le_of_not_lt h2⟩

/-- The magnetization value after any single Newton-Raphson iteration is
clamped into `[-M_s, +M_s]`. -/
theorem abs_nrStep_le (core : JilesAthertonCore) (H H_d delta M : ℝ)
    (hM : 0 ≤ core.params.M_s) :
    |core.nrStep H H_d delta M| ≤ core.params.M_s := by
  unfold JilesAthertonCore.nrStep
  exact abs_clampC_le _ hM

/-- C3. The Jiles-Atherton magnetization never exceeds the saturation
magnetization `M_s` (for any physically valid `M_s ≥ 0`): after each of
the Newton-Raphson iterations of `solveNR8` (`n ≥ 1`), for the value the
solver returns, for the value `process` returns, and for the stored
previous-magnetization state `M_n1` after `process`, the magnitude of
`M` is at most `M_s`, for every input field and every field slope. -/
theorem jaMagnetization_clamped (core : JilesAthertonCore)
    (H H_d delta : ℝ) (hM : 0 ≤ core.params.M_s) :
    (∀ n : ℕ, 1 ≤ n →
      |core.nrLoop H H_d delta n| ≤ core.params.M_s) ∧
    |core.solveNR8 H H_d| ≤ core.params.M_s ∧
    |(core.process H).1| ≤ core.params.M_s ∧
    |(core.process H).2.M_n1| ≤ core.params.M_s := by
  have hloop : ∀ hd d : ℝ, ∀ n : ℕ, 1 ≤ n →
      |core.nrLoop H hd d n| ≤ core.params.M_s := by
    intro hd d n hn
    match n, hn with
    | n + 1, _ =>
      have he : core.nrLoop H hd d (n + 1) =
          core.nrStep H hd d (core.nrLoop H hd d n) := rfl
      rw [he]
      exact abs_nrStep_le core H hd _ _ hM
  have hsolve : ∀ hd : ℝ, |core.solveNR8 H hd| ≤ core.params.M_s := by
    intro hd
    have he : core.solveNR8 H hd =
        core.nrLoop H hd (if hd ≥ 0 then 1 else -1) 8 := rfl
    rw [he]
    exact hloop hd _ 8 (by norm_num)
  have hp1 : (core.process H).1 =
      core.solveNR8 H ((H - core.H_n1) / core.T) := rfl
  have hp2 : (core.process H).2.M_n1 =
      core.solveNR8 H ((H - core.H_n1) / core.T) := rfl
  exact ⟨hloop H_d delta, hsolve H_d, hp1 ▸ hsolve _, hp2 ▸ hsolve _⟩

/-- Witness for C3 at the default core parameters (`M_s = 350000`) with
field `H = 2`. -/
theorem jaMagnetization_clamped_witness :
    |(JilesAthertonCore.process {} 2).1| ≤ 350000 := by
  have h := jaMagnetization_clamped {} 2 0 1 (by norm_num)
  simpa using h.2.2.1

/-- C1. `processSample` does not apply the machine EQ or the dispersive
allpass cascade: its return value is independent of the `machineEQ`,
`dispersiveAllpass` and `dispersiveCornerFreq` members, and those
members are left untouched by the call — contradicting the signal-flow
documentation in `HybridTapeProcessor.h` (steps 7 and 8). -/
theorem processSample_skips_machineEQ_and_dispersive
    (s : HybridTapeProcessor) (input : ℝ) (m : MachineEQ)
    (d : Fin 4 → AllpassFilter) (freq : ℝ) :
    ((HybridTapeProcessor.processSample
        { s with machineEQ := m, dispersiveAllpass := d,
                 dispersiveCornerFreq := freq } input).1 =
      (s.processSample input).1) ∧
    (s.processSample input).2.machineEQ = s.machineEQ ∧
    (s.processSample input).2.dispersiveAllpass = s.dispersiveAllpass ∧
    (s.processSample input).2.dispersiveCornerFreq =
      s.dispersiveCornerFreq :=
  ⟨rfl, rfl, rfl, rfl⟩

/-- C5. The blend envelope follower implements the stated asymmetric
update rule, and `processSample` updates `jaEnvelope` with it on
`|input * currentInputGain|`; but the attack coefficient (0.002) is
smaller — ten times smaller — than the release coefficient (0.020),
the opposite of the claimed fast-rise/slow-fall ballistics. -/
theorem envelopeFollower_rule_and_coefficients :
    (∀ env a : ℝ, envFollow env a =
      if a > env then env + envAttack * (a - env)
      else env + envRelease * (a - env)) ∧
    (∀ (s : HybridTapeProcessor) (x : ℝ),
      (s.processSample x).2.jaEnvelope =
        envFollow s.jaEnvelope |x * s.currentInputGain|) ∧
    envAttack < envRelease ∧ envRelease = 10 * envAttack :=
  ⟨fun _ _ => rfl, fun _ _ => rfl,
    by norm_num [envAttack, envRelease],
    by norm_num [envAttack, envRelease]⟩

/-- C7. `processRightChannel` is exactly `processSample` followed by the
azimuth-delay push: the processed sample is written into the delay
line, the returned value is the interpolated delayed read, the write
index advances by one modulo the buffer size, and every other state
component (saturation, filters, envelope, gain) is exactly the state
`processSample` produces. -/
theorem processRightChannel_decomposition
    (s : HybridTapeProcessor) (input : ℝ) :
    s.processRightChannel input =
      azimuthPush (s.processSample input).2 (s.processSample input).1 ∧
    (s.processRightChannel input).2.delayBuffer =
      Function.update (s.processSample input).2.delayBuffer
        (s.processSample input).2.delayWriteIndex
        (s.processSample input).1 ∧
    (s.processRightChannel input).2.delayWriteIndex =
      (s.processSample input).2.delayWriteIndex + 1 ∧
    (s.processRightChannel input).2.jaEnvelope =
      (s.processSample input).2.jaEnvelope ∧
    (s.processRightChannel input).2.jaCore =
      (s.processSample input).2.jaCore ∧
    (s.processRightChannel input).2.deEmphasis =
      (s.processSample input).2.deEmphasis ∧
    (s.processRightChannel input).2.reEmphasis =
      (s.processSample input).2.reEmphasis ∧
    (s.processRightChannel input).2.dcBlocker1 =
      (s.processSample input).2.dcBlocker1 ∧
    (s.processRightChannel input).2.dcBlocker2 =
      (s.processSample input).2.dcBlocker2 ∧
    (s.processRightChannel input).2.currentInputGain =
      (s.processSample input).2.currentInputGain ∧
    (s.processRightChannel input).2.currentBiasStrength =
      (s.processSample input).2.currentBiasStrength :=
  ⟨rfl, rfl, rfl, rfl, rfl, rfl, rfl, rfl, rfl, rfl, rfl⟩

/-- Helper: `updateCachedValues` does not change the bias strength. -/
theorem updateCachedValues_bias (s : HybridTapeProcessor) :
    s.updateCachedValues.currentBiasStrength = s.currentBiasStrength := by
  unfold HybridTapeProcessor.updateCachedValues
  split <;> rfl

/-- Helper: `updateCachedValues` does not change the input gain. -/
theorem updateCachedValues_gain (s : HybridTapeProcessor) :
    s.updateCachedValues.currentInputGain = s.currentInputGain := by
  unfold HybridTapeProcessor.updateCachedValues
  split <;> rfl

/-- Helper: `updateCachedValues` selects Ampex mode exactly when the
bias strength is below 0.74. -/
theorem updateCachedValues_isAmpex (s : HybridTapeProcessor) :
    (s.updateCachedValues.isAmpexMode = true ↔
      s.currentBiasStrength < 0.74) := by
  unfold HybridTapeProcessor.updateCachedValues
  split_ifs with h <;> simp [h]

/-- C8. `setParameters` clamps the bias-strength argument into `[0,1]`
(out-of-range values are clamped, not rejected), and the machine
profile is Master (Ampex) exactly when the clamped value is strictly
below 0.74. -/
theorem setParameters_clamps_and_thresholds
    (s : HybridTapeProcessor) (b g : ℝ) :
    (s.setParameters b g).currentBiasStrength = clampC b 0.0 1.0 ∧
    0 ≤ (s.setParameters b g).currentBiasStrength ∧
    (s.setParameters b g).currentBiasStrength ≤ 1 ∧
    ((s.setParameters b g).isAmpexMode = true ↔ clampC b 0.0 1.0 < 0.74) := by
  have h1 : (s.setParameters b g).currentBiasStrength = clampC b 0.0 1.0 := by
    unfold HybridTapeProcessor.setParameters
    rw [updateCachedValues_bias]
  have hm := clampC_mem b (show (0.0:ℝ) ≤ 1.0 by norm_num)
  refine ⟨h1, ?_, ?_, ?_⟩
  · rw [h1]; linarith [hm.1]
  · rw [h1]; linarith [hm.2]
  · unfold HybridTapeProcessor.setParameters
    rw [updateCachedValues_isAmpex]

/-- C4. At the highest supported oversampled rate (2 x 192000 Hz) in
Tracks (Studer) mode the cached azimuth delay is 4.608 samples, which
is not below `DELAY_BUFFER_SIZE = 4`: the delay buffer is too short.
(In Master mode the delay at the same rate is 3.072 samples, inside
the buffer.) -/
theorem azimuthDelay_exceeds_buffer_at_384k :
    ((constructedHybrid.setSampleRate 384000).setParameters
      0.8 1.0).cachedDelaySamples = 4.608 ∧
    ¬ (((constructedHybrid.setSampleRate 384000).setParameters
      0.8 1.0).cachedDelaySamples < (DELAY_BUFFER_SIZE : ℝ)) ∧
    ((constructedHybrid.setSampleRate 384000).setParameters
      0.8 1.0).isAmpexMode = false ∧
    ((constructedHybrid.setSampleRate 384000).setParameters
      0.5 1.0).cachedDelaySamples = 3.072 := by
  have hc1 : ¬ ((0.8:ℝ) < 0.0) := by norm_num
  have hc2 : ¬ ((1.0:ℝ) < 0.8) := by norm_num
  have hc3 : ¬ ((0.8:ℝ) < 0.74) := by norm_num
  have hc4 : ¬ ((0.5:ℝ) < 0.0) := by norm_num
  have hc5 : ¬ ((1.0:ℝ) < 0.5) := by norm_num
  have hc6 : (0.5:ℝ) < 0.74 := by norm_num
  refine ⟨?_, ?_, ?_, ?_⟩ <;>
    simp only [HybridTapeProcessor.setParameters,
      HybridTapeProcessor.updateCachedValues,
      HybridTapeProcessor.setSampleRate, clampC,
      hc1, hc2, hc3, hc4, hc5, hc6, if_false, if_true,
      ite_false, ite_true] <;>
    norm_num

/-- Helper: `clampC` into `[0,1]` is the identity on values already in
range. -/
theorem clampC_eq_self {b : ℝ} (h0 : 0 ≤ b) (h1 : b ≤ 1) :
    clampC b 0.0 1.0 = b := by
  unfold clampC
  split_ifs with ha hb
  · linarith
  · linarith
  · rfl

/-- Helper: `updateCachedValues` is idempotent — it is a pure function
of the bias strength and the sample rate, neither of which it
changes. -/
theorem updateCachedValues_idem (s : HybridTapeProcessor) :
    s.updateCachedValues.updateCachedValues = s.updateCachedValues := by
  unfold HybridTapeProcessor.updateCachedValues
  by_cases h : s.currentBiasStrength < 0.74 <;>
    simp [h, JilesAthertonCore.setParameters]

/-- C2 (amended). `setParameters` recomputes the cached coefficient set
unconditionally — there is no profile/gain change check — but the
recomputation never touches any filter state, and it is a pure function
of the clamped bias strength and the current sample rate: a redundant
push on a processor whose cache is consistent with its current sample
rate reproduces the state exactly. -/
theorem setParameters_unconditional_recompute :
    (∀ (s : HybridTapeProcessor) (b g : ℝ),
      dynamicState (s.setParameters b g) = dynamicState s) ∧
    (∀ s : HybridTapeProcessor,
      s.updateCachedValues = s → 0 ≤ s.currentBiasStrength →
      s.currentBiasStrength ≤ 1 →
      s.setParameters s.currentBiasStrength s.currentInputGain = s) := by
  constructor
  · intro s b g
    unfold HybridTapeProcessor.setParameters
      HybridTapeProcessor.updateCachedValues
    split <;> rfl
  · intro s hcons h0 h1
    unfold HybridTapeProcessor.setParameters
    rw [clampC_eq_self h0 h1]
    have he : ({ s with
        currentBiasStrength := s.currentBiasStrength
        currentInputGain := s.currentInputGain } : HybridTapeProcessor)
        = s := rfl
    rw [he, hcons]

/-- Witness for C2's amended theorem: a redundant push at the default
state (with a consistent cache) is the identity. -/
theorem setParameters_unconditional_recompute_witness :
    (HybridTapeProcessor.updateCachedValues {}).setParameters
      ((HybridTapeProcessor.updateCachedValues {}).currentBiasStrength)
      ((HybridTapeProcessor.updateCachedValues {}).currentInputGain) =
      HybridTapeProcessor.updateCachedValues {} := by
  apply setParameters_unconditional_recompute.2
  · exact updateCachedValues_idem {}
  · rw [updateCachedValues_bias]
    show (0:ℝ) ≤ 0.65
    norm_num
  · rw [updateCachedValues_bias]
    show (0.65:ℝ) ≤ 1
    norm_num

/-- Counterexample to C2 as stated: after a sample-rate change, a
parameter push with the machine profile, the bias value and the gain
all unchanged still rewrites a cached coefficient —
`cachedDelaySamples` jumps from 0.384 (cached at 48 kHz) to 0.768. -/
theorem setParameters_redundant_push_changes_cache :
    (constructedHybrid.setSampleRate 96000).currentBiasStrength = 0.65 ∧
    (constructedHybrid.setSampleRate 96000).currentInputGain = 1 ∧
    (constructedHybrid.setSampleRate 96000).cachedDelaySamples = 0.384 ∧
    ((constructedHybrid.setSampleRate 96000).setParameters
      0.65 1).cachedDelaySamples = 0.768 ∧
    ((constructedHybrid.setSampleRate 96000).setParameters
        0.65 1).cachedDelaySamples ≠
      (constructedHybrid.setSampleRate 96000).cachedDelaySamples := by
  have hc1 : ¬ ((0.65:ℝ) < 0.0) := by norm_num
  have hc2 : ¬ ((1.0:ℝ) < 0.65) := by norm_num
  have hc3 : (0.65:ℝ) < 0.74 := by norm_num
  refine ⟨?_, ?_, ?_, ?_, ?_⟩ <;>
    simp only [HybridTapeProcessor.setParameters,
      HybridTapeProcessor.updateCachedValues,
      HybridTapeProcessor.setSampleRate, HybridTapeProcessor.reset,
      constructedHybrid, clampC,
      hc1, hc2, hc3, if_false, if_true, ite_false, ite_true] <;>
    norm_num

/-- C9. The auto-gain link: when the input-trim parameter changes (and
the update is not itself caused by the link, i.e. the guard flag is
clear), the output trim is multiplied by the inverse ratio old/new and
clamped to `[0.1, 3.0]`, and the guard flag ends clear; while the guard
flag is set, `parameterChanged` is inert; a change to any parameter
other than the input trim leaves the state (in particular the output
trim) unchanged. -/
theorem autoGain_link_spec :
    (∀ (st : AutoGainState) (v : ℝ),
      st.isUpdatingOutputTrim = false → v ≠ 0 →
      parameterChanged st PARAM_INPUT_TRIM v =
        { st with
          outputTrim := clampC (st.outputTrim *
            (st.lastInputTrimValue / v)) 0.1 3.0
          lastInputTrimValue := v
          isUpdatingOutputTrim := false }) ∧
    (∀ (st : AutoGainState) (id : String) (v : ℝ),
      id ≠ PARAM_INPUT_TRIM → parameterChanged st id v = st) ∧
    (∀ (st : AutoGainState) (id : String) (v : ℝ),
      st.isUpdatingOutputTrim = true → parameterChanged st id v = st) := by
  refine ⟨?_, ?_, ?_⟩
  · intro st v hguard hv
    unfold parameterChanged
    rw [if_pos ⟨rfl, hguard⟩]
  · intro st id v hid
    unfold parameterChanged
    rw [if_neg]
    rintro ⟨h1, -⟩
    exact hid h1
  · intro st id v hguard
    unfold parameterChanged
    rw [if_neg]
    rintro ⟨-, h2⟩
    rw [hguard] at h2
    exact Bool.noConfusion h2

/-- Witness for C9: quadrupling the drive from 0.5 to 2.0 scales the
output trim 1.0 down to 0.25, and a machine-mode change leaves the
output trim alone. -/
theorem autoGain_link_witness :
    parameterChanged
      { lastInputTrimValue := 0.5, outputTrim := 1.0,
        isUpdatingOutputTrim := false } PARAM_INPUT_TRIM 2 =
      { lastInputTrimValue := 2, outputTrim := 0.25,
        isUpdatingOutputTrim := false } ∧
    parameterChanged
      { lastInputTrimValue := 0.5, outputTrim := 1.0,
        isUpdatingOutputTrim := false } PARAM_MACHINE_MODE 7 =
      { lastInputTrimValue := 0.5, outputTrim := 1.0,
        isUpdatingOutputTrim := false } := by
  constructor
  · rw [autoGain_link_spec.1 _ 2 rfl (by norm_num)]
    have hc1 : ¬ ((1.0:ℝ) * (0.5 / 2) < 0.1) := by norm_num
    have hc2 : ¬ ((3.0:ℝ) < 1.0 * (0.5 / 2)) := by norm_num
    simp only [clampC, hc1, hc2, if_false, ite_false]
    norm_num
  · exact autoGain_link_spec.2.1 _ _ 7 (by decide)

/-- Helper: single envelope update — nonnegative and bounded by the
larger of the old envelope and the new rectified level. -/
theorem envFollow_bounds {env a : ℝ} (henv : 0 ≤ env) (ha : 0 ≤ a) :
    0 ≤ envFollow env a ∧ envFollow env a ≤ max env a := by
  unfold envFollow envAttack envRelease
  split_ifs with h
  · constructor
    · nlinarith
    · have hle : env + 0.002 * (a - env) ≤ a := by nlinarith
      exact hle.trans (le_max_right _ _)
  · constructor
    · nlinarith
    · have hle : env + 0.020 * (a - env) ≤ env := by nlinarith
      exact hle.trans (le_max_left _ _)

/-- Helper: the running-max fold is monotone in the initial value. -/
theorem foldl_max_mono (g : ℝ) (xs : List ℝ) :
    ∀ {a b : ℝ}, a ≤ b →
      xs.foldl (fun m x => max m |x * g|) a ≤
        xs.foldl (fun m x => max m |x * g|) b := by
  induction xs with
  | nil => intro a b h; simpa using h
  | cons x xs ih =>
    intro a b h
    simp only [List.foldl_cons]
    exact ih (max_le_max h (le_refl _))

/-- Helper: over any input run, the envelope stays nonnegative and below
the running maximum of the rectified gained input (seeded by the
starting envelope). -/
theorem processList_env_bounds (xs : List ℝ) :
    ∀ s : HybridTapeProcessor, 0 ≤ s.jaEnvelope →
      0 ≤ (processList s xs).jaEnvelope ∧
      (processList s xs).jaEnvelope ≤
        xs.foldl (fun m x => max m |x * s.currentInputGain|)
          s.jaEnvelope := by
  induction xs with
  | nil => intro s h; exact ⟨h, le_refl _⟩
  | cons x xs ih =>
    intro s h
    have hstep := envFollow_bounds h (abs_nonneg (x * s.currentInputGain))
    have henv : (s.processSample x).2.jaEnvelope =
        envFollow s.jaEnvelope |x * s.currentInputGain| := rfl
    have hgain : (s.processSample x).2.currentInputGain =
        s.currentInputGain := rfl
    have h0' : 0 ≤ (s.processSample x).2.jaEnvelope := by
      rw [henv]; exact hstep.1
    obtain ⟨ih1, ih2⟩ := ih (s.processSample x).2 h0'
    have hlist : processList s (x :: xs) =
        processList (s.processSample x).2 xs := rfl
    rw [hlist]
    refine ⟨ih1, ?_⟩
    rw [hgain, henv] at ih2
    refine ih2.trans ?_
    simp only [List.foldl_cons]
    exact foldl_max_mono s.currentInputGain xs hstep.2

/-- Helper: `processSample` leaves the blend parameters and the gain
untouched over a whole run. -/
theorem processList_static (xs : List ℝ) (s : HybridTapeProcessor) :
    (processList s xs).jaBlendMax = s.jaBlendMax ∧
    (processList s xs).atanMixMax = s.atanMixMax ∧
    (processList s xs).currentInputGain = s.currentInputGain ∧
    (processList s xs).jaBlendThreshold = s.jaBlendThreshold ∧
    (processList s xs).jaBlendWidth = s.jaBlendWidth ∧
    (processList s xs).atanThreshold = s.atanThreshold ∧
    (processList s xs).atanWidth = s.atanWidth := by
  induction xs generalizing s with
  | nil => exact ⟨rfl, rfl, rfl, rfl, rfl, rfl, rfl⟩
  | cons x xs ih => exact ih (s.processSample x).2

/-- Helper: the cubic-smoothstep blend weight is between 0 and its
maximum whenever the ratio is in `[0,1]` and the maximum nonnegative. -/
theorem blendWeight_bounds {mx r : ℝ} (hmx : 0 ≤ mx) (h0 : 0 ≤ r)
    (h1 : r ≤ 1) : 0 ≤ mx * r * r * (3 - 2 * r) ∧
      mx * r * r * (3 - 2 * r) ≤ mx := by
  have h2r : (0:ℝ) ≤ 1 + 2 * r := by linarith
  constructor
  · have h3 : (0:ℝ) ≤ 3 - 2 * r := by linarith
    exact mul_nonneg (mul_nonneg (mul_nonneg hmx h0) h0) h3
  · nlinarith [mul_nonneg hmx (mul_nonneg (sq_nonneg (1 - r)) h2r)]

/-- C10. Starting from reset (`jaEnvelope = 0`), after any sequence of
`processSample` calls the envelope is nonnegative and never exceeds the
largest `|input * currentInputGain|` seen; the clamped blend ratios are
always in `[0,1]` and the blend weights lie in `[0, jaBlendMax]` and
`[0, atanMixMax]`. -/
theorem jaEnvelope_invariant (s : HybridTapeProcessor) (xs : List ℝ)
    (h0 : s.jaEnvelope = 0) (hj : 0 ≤ s.jaBlendMax)
    (ha : 0 ≤ s.atanMixMax) :
    (0 ≤ (processList s xs).jaEnvelope ∧
     (processList s xs).jaEnvelope ≤ maxAbsGained s.currentInputGain xs) ∧
    (∀ env : ℝ,
      0 ≤ jaBlendRatioOf (processList s xs) env ∧
      jaBlendRatioOf (processList s xs) env ≤ 1 ∧
      0 ≤ atanBlendRatioOf (processList s xs) env ∧
      atanBlendRatioOf (processList s xs) env ≤ 1 ∧
      0 ≤ jaBlendOf (processList s xs) env ∧
      jaBlendOf (processList s xs) env ≤ s.jaBlendMax ∧
      0 ≤ atanAmountOf (processList s xs) env ∧
      atanAmountOf (processList s xs) env ≤ s.atanMixMax) := by
  have hb := processList_env_bounds xs s (le_of_eq h0.symm)
  have hstat := processList_static xs s
  constructor
  · refine ⟨hb.1, ?_⟩
    have : xs.foldl (fun m x => max m |x * s.currentInputGain|)
        s.jaEnvelope = maxAbsGained s.currentInputGain xs := by
      rw [h0]; rfl
    exact this ▸ hb.2
  · intro env
    have hle : (0.0:ℝ) ≤ 1.0 := by norm_num
    have hja := clampC_mem ((env - (processList s xs).jaBlendThreshold) /
      (processList s xs).jaBlendWidth) hle
    have hat := clampC_mem ((env - (processList s xs).atanThreshold) /
      (processList s xs).atanWidth) hle
    have hja0 : 0 ≤ jaBlendRatioOf (processList s xs) env := by
      have := hja.1; unfold jaBlendRatioOf; linarith
    have hja1 : jaBlendRatioOf (processList s xs) env ≤ 1 := by
      have := hja.2; unfold jaBlendRatioOf; linarith
    have hat0 : 0 ≤ atanBlendRatioOf (processList s xs) env := by
      have := hat.1; unfold atanBlendRatioOf; linarith
    have hat1 : atanBlendRatioOf (processList s xs) env ≤ 1 := by
      have := hat.2; unfold atanBlendRatioOf; linarith
    have hjmx : 0 ≤ (processList s xs).jaBlendMax := by
      rw [hstat.1]; exact hj
    have hamx : 0 ≤ (processList s xs).atanMixMax := by
      rw [hstat.2.1]; exact ha
    have hjw := blendWeight_bounds hjmx hja0 hja1
    have haw := blendWeight_bounds hamx hat0 hat1
    refine ⟨hja0, hja1, hat0, hat1, ?_, ?_, ?_, ?_⟩
    · unfold jaBlendOf; exact hjw.1
    · unfold jaBlendOf; rw [← hstat.1]; exact hjw.2
    · unfold atanAmountOf; exact haw.1
    · unfold atanAmountOf; rw [← hstat.2.1]; exact haw.2

/-- Witness for C10 at the freshly constructed processor on the run
`[1, -2]`, with the blend-weight bounds instantiated at the envelope
value 0.5. -/
theorem jaEnvelope_invariant_witness :
    (0 ≤ (processList constructedHybrid [1, -2]).jaEnvelope ∧
     (processList constructedHybrid [1, -2]).jaEnvelope ≤
       maxAbsGained constructedHybrid.currentInputGain [1, -2]) ∧
    (0 ≤ jaBlendOf (processList constructedHybrid [1, -2]) 0.5 ∧
     jaBlendOf (processList constructedHybrid [1, -2]) 0.5 ≤
       constructedHybrid.jaBlendMax) ∧
    (0 ≤ atanAmountOf (processList constructedHybrid [1, -2]) 0.5 ∧
     atanAmountOf (processList constructedHybrid [1, -2]) 0.5 ≤
       constructedHybrid.atanMixMax) := by
  have hc3 : (0.65:ℝ) < 0.74 := by norm_num
  have h := jaEnvelope_invariant constructedHybrid [1, -2] rfl ?hj ?ha
  case hj =>
    simp only [constructedHybrid, HybridTapeProcessor.reset,
      HybridTapeProcessor.updateCachedValues, hc3, if_true, ite_true]
    norm_num
  case ha =>
    simp only [constructedHybrid, HybridTapeProcessor.reset,
      HybridTapeProcessor.updateCachedValues, hc3, if_true, ite_true]
    norm_num
  exact ⟨h.1, ⟨(h.2 0.5).2.2.2.2.1, (h.2 0.5).2.2.2.2.2.1⟩,
    ⟨(h.2 0.5).2.2.2.2.2.2.1, (h.2 0.5).2.2.2.2.2.2.2⟩⟩
